import Mathlib

/-!
Verification of the cstock risk-management core.

This file gives a shallow embedding, in Lean 4, of the two self-contained
components of the `cstock` repository that its specification centres on:

* `RiskManager` (src/cstock/risk_manager.py): per-symbol stop-loss /
  take-profit thresholds, dynamic take-profit adjustment, and position sizing
  against a maximum-allocation fraction; and
* `OrderMetric` (src/cstock/order_metric.py): an append-only trade ledger
  with incrementally maintained aggregate statistics.

Python `dict`s are embedded as association lists with unique keys in
insertion order (Python 3.7+ dicts preserve insertion order, and overwriting
a key keeps its position); `float` arithmetic is embedded over `ℚ`;
`datetime` values are embedded as integer timestamps in seconds, with
`timedelta.days` embedded as flooring division by 86400.  Methods that
mutate `self` are embedded as state-passing functions returning the new
state.
-/

set_option autoImplicit false

namespace CStock

/-! ## Association lists embedding Python dicts -/

/-- `d.get(k)` / `k in d` on a Python dict, embedded on an association list:
the value at the first (and, for a genuine dict, only) binding of `k`. -/
def assocGet {α : Type} : List (String × α) → String → Option α
  | [], _ => none
  | (k', v) :: rest, k => if k' = k then some v else assocGet rest k

/-- `d[k] = v` on a Python dict: overwrite the binding of `k` in place if
present (a dict keeps the key's insertion position), else append it. -/
def assocSet {α : Type} : List (String × α) → String → α → List (String × α)
  | [], k, v => [(k, v)]
  | (k', v') :: rest, k, v =>
    if k' = k then (k, v) :: rest else (k', v') :: assocSet rest k v

/-- `del d[k]` on a Python dict: remove the binding of `k` (a dict has at
most one). -/
def assocErase {α : Type} (l : List (String × α)) (k : String) :
    List (String × α) :=
  l.filter (fun p => decide (p.1 ≠ k))

theorem assocGet_set_self {α : Type} (l : List (String × α)) (k : String) (v : α) :
    assocGet (assocSet l k v) k = some v := by
  induction l with
  | nil => simp [assocSet, assocGet]
  | cons hd tl ih =>
    obtain ⟨k', v'⟩ := hd
    by_cases h : k' = k
    · simp [assocSet, h, assocGet]
    · simp [assocSet, h, assocGet, ih]

theorem assocErase_idem {α : Type} (l : List (String × α)) (k : String) :
    assocErase (assocErase l k) k = assocErase l k := by
  simp [assocErase, List.filter_filter]

theorem assocErase_of_get_none {α : Type} (l : List (String × α)) (k : String)
    (h : assocGet l k = none) : assocErase l k = l := by
  induction l with
  | nil => rfl
  | cons hd tl ih =>
    obtain ⟨k', v'⟩ := hd
    by_cases hk : k' = k
    · simp [assocGet, hk] at h
    · simp [assocGet, hk] at h
      simp [assocErase, hk] at ih ⊢
      exact ih h

/-! ## RiskManager (src/cstock/risk_manager.py) -/

/-- One entry of `RiskManager.positions`: the per-symbol dict built by
`add_position` with keys `entry_price`, `stop_loss_price`,
`take_profit_price`. -/
structure RMPosition where
  entry_price : ℚ
  stop_loss_price : ℚ
  take_profit_price : ℚ
  deriving Repr, DecidableEq

/-- The state of a `RiskManager` instance: configuration fields set in
`__init__` plus the mutable `positions` dict and `_today_used_cash`. -/
structure RiskManager where
  stop_loss_pct : ℚ
  base_take_profit_pct : ℚ
  max_position_size : ℚ
  positions : List (String × RMPosition)
  today_used_cash : ℚ
  rsi_threshold : ℚ
  trend_bonus : ℚ
  deriving Repr, DecidableEq

/-- `RiskManager(stop_loss_pct, take_profit_pct, max_position_size)` with the
constructor's defaults `0.1`, `0.2`, `0.3`, `rsi_threshold = 70`,
`trend_bonus = 0.1`. -/
def mkRiskManager (stop_loss_pct take_profit_pct max_position_size : ℚ) :
    RiskManager :=
  { stop_loss_pct := stop_loss_pct
    base_take_profit_pct := take_profit_pct
    max_position_size := max_position_size
    positions := []
    today_used_cash := 0
    rsi_threshold := 70
    trend_bonus := 1/10 }

/-- A `RiskManager` built with all constructor defaults. -/
def rmDefault : RiskManager := mkRiskManager (1/10) (1/5) (3/10)

/-- `RiskManager.reset_daily_cash`. -/
def resetDailyCash (rm : RiskManager) : RiskManager :=
  { rm with today_used_cash := 0 }

/-- `RiskManager.add_position(symbol, entry_price)`. -/
def addPosition (rm : RiskManager) (symbol : String) (entry_price : ℚ) :
    RiskManager :=
  let pos : RMPosition :=
    { entry_price := entry_price
      stop_loss_price := entry_price * (1 - rm.stop_loss_pct)
      take_profit_price := entry_price * (1 + rm.base_take_profit_pct) }
  { rm with positions := assocSet rm.positions symbol pos }

/-- `RiskManager.remove_position(symbol)`: `if symbol in self.positions:
del self.positions[symbol]`. -/
def removePosition (rm : RiskManager) (symbol : String) : RiskManager :=
  { rm with positions := assocErase rm.positions symbol }

/-- The exit types produced by `check_exit_signals`. -/
inductive ExitType where
  | stop_loss
  | take_profit
  deriving Repr, DecidableEq

/-- `RiskManager.check_exit_signals(symbol, current_price, rsi, volume_ratio)`.
Returns the `(should_exit, exit_type)` pair together with the updated state:
when both `rsi` and `volume_ratio` are supplied and the stop-loss check did
not already return, the method writes the recomputed `take_profit_price`
back into `self.positions[symbol]`.  The dead assignment of
`current_return` (unused by the method; it would fault in Python only for
`entry_price = 0`, excluded by the `add_position` precondition
`entry_price > 0`) is omitted. -/
def checkExitSignals (rm : RiskManager) (symbol : String) (current_price : ℚ)
    (rsi : Option ℚ) (vr : Option ℚ) :
    (Bool × Option ExitType) × RiskManager :=
  match assocGet rm.positions symbol with
  | none => ((false, none), rm)
  | some position =>
    if current_price ≤ position.stop_loss_price then
      ((true, some ExitType.stop_loss), rm)
    else
      match rsi, vr with
      | some r, some _ =>
        let trend_strength : ℚ := if r > rm.rsi_threshold then 1 else 0
        let take_profit_pct := rm.base_take_profit_pct + trend_strength * rm.trend_bonus
        let position' := { position with
          take_profit_price := position.entry_price * (1 + take_profit_pct) }
        let rm' := { rm with positions := assocSet rm.positions symbol position' }
        if current_price ≥ position'.take_profit_price then
          ((true, some ExitType.take_profit), rm')
        else
          ((false, none), rm')
      | _, _ =>
        if current_price ≥ position.take_profit_price then
          ((true, some ExitType.take_profit), rm)
        else
          ((false, none), rm)

/-- `RiskManager.update_position_params(symbol, stop_loss_pct, take_profit_pct)`. -/
def updatePositionParams (rm : RiskManager) (symbol : String)
    (stop_loss_pct take_profit_pct : Option ℚ) : RiskManager :=
  match assocGet rm.positions symbol with
  | none => rm
  | some position =>
    let p1 := match stop_loss_pct with
      | some s => { position with stop_loss_price := position.entry_price * (1 - s) }
      | none => position
    let p2 := match take_profit_pct with
      | some t => { p1 with take_profit_price := p1.entry_price * (1 + t) }
      | none => p1
    { rm with positions := assocSet rm.positions symbol p2 }

/-- The loop in `get_position_size` summing `position.size * d.close[0]`
over the strategy's data feeds; each pair is one feed's (position size,
current close). -/
def totalPositionValue (positionValues : List (ℤ × ℚ)) : ℚ :=
  (positionValues.map (fun p => (p.1 : ℚ) * p.2)).sum

/-- `RiskManager.get_position_size(data, broker)`, embedded over the values
the method actually reads from the framework objects: the per-feed
position sizes and closes (for the total-position-value loop),
`broker.getvalue()`, `broker.getcash()`, and `data.close[0]`.  The method
reads `self.max_position_size` and never writes to `self`, so the state is
returned unchanged. -/
def getPositionSize (rm : RiskManager) (positionValues : List (ℤ × ℚ))
    (total_value cash price : ℚ) : ℤ × RiskManager :=
  let total_position_value := totalPositionValue positionValues
  let max_total_position := total_value * rm.max_position_size
  let remaining_position := max_total_position - total_position_value
  if remaining_position ≤ 0 then (0, rm)
  else
    let available_cash := min cash remaining_position
    if available_cash < price then (0, rm)
    else (⌊available_cash / price⌋, rm)

/-! ## OrderMetric (src/cstock/order_metric.py) -/

/-- The `direction` field of a `TradeRecord` (`'buy'` or `'sell'`). -/
inductive Direction where
  | buy
  | sell
  deriving Repr, DecidableEq

/-- The `TradeRecord` dataclass.  `datetime` values are integer timestamps
in seconds; the dataclass defaults are `exit_time = None`, `exit_price = 0.0`,
`pnl = 0.0`, `exit_type = ''`.  `exit_type` stays a plain string because
`on_trade_exit` accepts arbitrary strings. -/
structure TradeRecord where
  symbol : String
  entry_time : ℤ
  entry_price : ℚ
  size : ℤ
  direction : Direction
  commission : ℚ
  exit_time : Option ℤ := none
  exit_price : ℚ := 0
  pnl : ℚ := 0
  exit_type : String := ""
  deriving Repr, DecidableEq

/-- One entry of `OrderMetric.stock_metrics` (per-symbol drawdown data). -/
structure StockMetrics where
  highest_value : ℚ
  max_drawdown : ℚ
  current_drawdown : ℚ
  deriving Repr, DecidableEq

/-- One entry of `OrderMetric.stock_stats` (per-symbol statistics). -/
structure StockStats where
  total_trades : ℕ
  winning_trades : ℕ
  losing_trades : ℕ
  total_pnl : ℚ
  max_profit : ℚ
  max_loss : ℚ
  total_commission : ℚ
  deriving Repr, DecidableEq

/-- The zeroed per-symbol statistics dict installed by `on_trade_exit` when
the symbol is seen for the first time. -/
def initStockStats : StockStats :=
  { total_trades := 0, winning_trades := 0, losing_trades := 0
    total_pnl := 0, max_profit := 0, max_loss := 0, total_commission := 0 }

/-- The state of an `OrderMetric` instance.  The fixed-key dict
`exit_types = {'stop_loss': 0, 'take_profit': 0, 'signal': 0}` is embedded
as three counters. -/
structure OrderMetric where
  trades : List TradeRecord
  active_trades : List (String × TradeRecord)
  total_trades : ℕ
  winning_trades : ℕ
  losing_trades : ℕ
  total_pnl : ℚ
  max_profit : ℚ
  max_loss : ℚ
  total_commission : ℚ
  stock_metrics : List (String × StockMetrics)
  stock_stats : List (String × StockStats)
  holding_periods : List ℤ
  exit_stop_loss : ℕ
  exit_take_profit : ℕ
  exit_signal : ℕ
  deriving Repr, DecidableEq

/-- `OrderMetric.__init__`. -/
def emptyOM : OrderMetric :=
  { trades := [], active_trades := []
    total_trades := 0, winning_trades := 0, losing_trades := 0
    total_pnl := 0, max_profit := 0, max_loss := 0, total_commission := 0
    stock_metrics := [], stock_stats := [], holding_periods := []
    exit_stop_loss := 0, exit_take_profit := 0, exit_signal := 0 }

/-- `OrderMetric.on_trade_entry(symbol, entry_time, entry_price, size,
direction, commission)`. -/
def onTradeEntry (om : OrderMetric) (symbol : String) (entry_time : ℤ)
    (entry_price : ℚ) (size : ℤ) (direction : Direction) (commission : ℚ) :
    OrderMetric :=
  let trade : TradeRecord :=
    { symbol := symbol, entry_time := entry_time, entry_price := entry_price
      size := size, direction := direction, commission := commission }
  let om1 := { om with active_trades := assocSet om.active_trades symbol trade }
  match assocGet om1.stock_metrics symbol with
  | some _ => om1
  | none =>
    let m : StockMetrics :=
      { highest_value := entry_price * (size : ℚ)
        max_drawdown := 0, current_drawdown := 0 }
    { om1 with stock_metrics := assocSet om1.stock_metrics symbol m }

/-- The drawdown-update block at the top of `on_trade_exit` (guarded by
`if symbol in self.stock_metrics`): update the watermark and drawdowns from
`current_value = exit_price * size`, then reset `highest_value` and
`current_drawdown` to zero for the next position. -/
def drawdownOnExit (om : OrderMetric) (symbol : String) (current_value : ℚ) :
    OrderMetric :=
  match assocGet om.stock_metrics symbol with
  | none => om
  | some metrics =>
    let highest := max metrics.highest_value current_value
    let m1 :=
      if highest > 0 then
        let cd := (highest - current_value) / highest * 100
        { metrics with highest_value := highest, current_drawdown := cd
                       max_drawdown := max metrics.max_drawdown cd }
      else
        { metrics with highest_value := highest }
    let m2 := { m1 with highest_value := 0, current_drawdown := 0 }
    { om with stock_metrics := assocSet om.stock_metrics symbol m2 }

/-- The finalization of the active trade record inside `on_trade_exit`:
set the exit fields, accumulate the exit commission, and compute `pnl`
(`(exit_price − entry_price) × size − commission` for `'buy'`, sign-flipped
for `'sell'`). -/
def finalizeTrade (trade0 : TradeRecord) (exit_time : ℤ) (exit_price : ℚ)
    (commission : ℚ) (exit_type : String) : TradeRecord :=
  let trade := { trade0 with
    exit_time := some exit_time, exit_price := exit_price
    commission := trade0.commission + commission, exit_type := exit_type }
  let pnl :=
    match trade.direction with
    | Direction.buy => (exit_price - trade.entry_price) * (trade.size : ℚ) - trade.commission
    | Direction.sell => (trade.entry_price - exit_price) * (trade.size : ℚ) - trade.commission
  { trade with pnl := pnl }

/-- `timedelta.days` of `exit_time - entry_time`, with timestamps in
seconds: Python's `timedelta.days` floors toward minus infinity. -/
def holdingDays (entry_time exit_time : ℤ) : ℤ :=
  (exit_time - entry_time).fdiv 86400

/-- The per-symbol statistics update of `on_trade_exit`: the unconditional
accumulation into `stats` followed by the win/loss branch. -/
def statsUpdate (stats0 : StockStats) (trade : TradeRecord) : StockStats :=
  let stats1 := { stats0 with
    total_trades := stats0.total_trades + 1
    total_pnl := stats0.total_pnl + trade.pnl
    total_commission := stats0.total_commission + trade.commission }
  if trade.pnl > 0 then
    { stats1 with winning_trades := stats1.winning_trades + 1
                  max_profit := max stats1.max_profit trade.pnl }
  else
    { stats1 with losing_trades := stats1.losing_trades + 1
                  max_loss := min stats1.max_loss trade.pnl }

/-- The block `if exit_type in self.exit_types: self.exit_types[exit_type] += 1`
of `on_trade_exit`: only the three pre-installed keys are ever counted. -/
def bumpExitType (om : OrderMetric) (exit_type : String) : OrderMetric :=
  if exit_type = "stop_loss" then
    { om with exit_stop_loss := om.exit_stop_loss + 1 }
  else if exit_type = "take_profit" then
    { om with exit_take_profit := om.exit_take_profit + 1 }
  else if exit_type = "signal" then
    { om with exit_signal := om.exit_signal + 1 }
  else om

/-- `OrderMetric.on_trade_exit(symbol, exit_time, exit_price, commission,
exit_type)`: no-op when no active trade exists for `symbol`; otherwise
update drawdowns, finalize the trade, update aggregate and per-symbol
statistics, append the holding period, bump the exit-type histogram for
the three known types, append the trade to the log, and drop the symbol
from the active map. -/
def onTradeExit (om : OrderMetric) (symbol : String) (exit_time : ℤ)
    (exit_price : ℚ) (commission : ℚ) (exit_type : String) : OrderMetric :=
  match assocGet om.active_trades symbol with
  | none => om
  | some trade0 =>
    let om1 := drawdownOnExit om symbol (exit_price * (trade0.size : ℚ))
    let trade := finalizeTrade trade0 exit_time exit_price commission exit_type
    let om2 := { om1 with
      total_trades := om1.total_trades + 1
      total_pnl := om1.total_pnl + trade.pnl
      total_commission := om1.total_commission + trade.commission }
    let om3 :=
      if trade.pnl > 0 then
        { om2 with winning_trades := om2.winning_trades + 1
                   max_profit := max om2.max_profit trade.pnl }
      else
        { om2 with losing_trades := om2.losing_trades + 1
                   max_loss := min om2.max_loss trade.pnl }
    let stats2 := statsUpdate ((assocGet om3.stock_stats symbol).getD initStockStats) trade
    let om4 := { om3 with stock_stats := assocSet om3.stock_stats symbol stats2 }
    let om5 := { om4 with
      holding_periods := om4.holding_periods ++ [holdingDays trade.entry_time exit_time] }
    let om6 := bumpExitType om5 exit_type
    { om6 with trades := om6.trades ++ [trade]
               active_trades := assocErase om6.active_trades symbol }

/-- The `win_rate` computed for one symbol's row of `stock_statistics`
inside the `get_metrics` loop. -/
def stockWinRate (stats : StockStats) : ℚ :=
  if stats.total_trades > 0 then
    (stats.winning_trades : ℚ) / (stats.total_trades : ℚ) * 100
  else 0

/-- The fields of the dict returned by `get_metrics` that the claims are
about.  In the zero-trade branch the Python dict carries only
`total_trades`, `win_rate`, `profit_factor`, `avg_holding_period` and
`stock_drawdowns`; the remaining fields of this snapshot are zero there. -/
structure MetricsSnapshot where
  total_trades : ℕ
  winning_trades : ℕ
  losing_trades : ℕ
  win_rate : ℚ
  total_pnl : ℚ
  max_profit : ℚ
  max_loss : ℚ
  total_commission : ℚ
  avg_holding_period : ℚ
  exit_stop_loss : ℕ
  exit_take_profit : ℕ
  exit_signal : ℕ
  deriving Repr, DecidableEq

/-- `OrderMetric.get_metrics()`.  The Python code first assigns the
aggregate win rate to the local `win_rate`, then *reuses the same variable*
inside the per-symbol `stock_statistics` loop; the value placed in the
returned dict is therefore the last loop iteration's per-symbol rate
whenever `stock_stats` is non-empty.  The fold below reproduces exactly
that reassignment sequence. -/
def getMetrics (om : OrderMetric) : MetricsSnapshot :=
  if om.total_trades = 0 then
    { total_trades := 0, winning_trades := 0, losing_trades := 0
      win_rate := 0, total_pnl := 0, max_profit := 0, max_loss := 0
      total_commission := 0, avg_holding_period := 0
      exit_stop_loss := 0, exit_take_profit := 0, exit_signal := 0 }
  else
    let aggregate_win_rate := (om.winning_trades : ℚ) / (om.total_trades : ℚ) * 100
    let avg_holding_period :=
      ((om.holding_periods.map (fun d => (d : ℚ))).sum) / (om.holding_periods.length : ℚ)
    let win_rate := om.stock_stats.foldl (fun _ p => stockWinRate p.2) aggregate_win_rate
    { total_trades := om.total_trades
      winning_trades := om.winning_trades
      losing_trades := om.losing_trades
      win_rate := win_rate
      total_pnl := om.total_pnl
      max_profit := om.max_profit
      max_loss := om.max_loss
      total_commission := om.total_commission
      avg_holding_period := avg_holding_period
      exit_stop_loss := om.exit_stop_loss
      exit_take_profit := om.exit_take_profit
      exit_signal := om.exit_signal }

/-! ## Event sequences and replay -/

/-- One call into the `OrderMetric` ledger. -/
inductive MetricEvent where
  | tradeEntry (symbol : String) (entry_time : ℤ) (entry_price : ℚ)
      (size : ℤ) (direction : Direction) (commission : ℚ)
  | tradeExit (symbol : String) (exit_time : ℤ) (exit_price : ℚ)
      (commission : ℚ) (exit_type : String)
  deriving Repr, DecidableEq

/-- Apply one ledger call to the state. -/
def applyEvent (om : OrderMetric) : MetricEvent → OrderMetric
  | MetricEvent.tradeEntry s t p sz d c => onTradeEntry om s t p sz d c
  | MetricEvent.tradeExit s t p c ty => onTradeExit om s t p c ty

/-- Run a sequence of ledger calls. -/
def runEvents (om : OrderMetric) (es : List MetricEvent) : OrderMetric :=
  es.foldl applyEvent om

/-- Replay one finalized trade record through a ledger: record its entry
(with the record's accumulated total commission) and immediately its exit
(with zero further commission). -/
def replayTrade (om : OrderMetric) (t : TradeRecord) : OrderMetric :=
  onTradeExit
    (onTradeEntry om t.symbol t.entry_time t.entry_price t.size t.direction t.commission)
    t.symbol (t.exit_time.getD 0) t.exit_price 0 t.exit_type

/-- Replay a full trade log through a ledger. -/
def replayLog (om : OrderMetric) (ts : List TradeRecord) : OrderMetric :=
  ts.foldl replayTrade om

/-- The active trade record that `on_trade_entry` would build from the entry
fields of a (finalized) trade record. -/
def entryRecordOf (t : TradeRecord) : TradeRecord :=
  { symbol := t.symbol, entry_time := t.entry_time, entry_price := t.entry_price
    size := t.size, direction := t.direction, commission := t.commission }

/-- A trade record is well formed when re-finalizing its own entry record
with its exit fields reproduces it exactly; every record `on_trade_exit`
appends to the log has this shape. -/
def wfTrade (t : TradeRecord) : Prop :=
  finalizeTrade (entryRecordOf t) (t.exit_time.getD 0) t.exit_price 0 t.exit_type = t

/-- The aggregate statistics of a ledger named by the replay invariant:
trade counts, total PnL, extreme single-trade PnLs, total commission, the
holding-period list (whose mean is `avg_holding_period`) and the exit-type
histogram. -/
structure AggState where
  total_trades : ℕ
  winning_trades : ℕ
  losing_trades : ℕ
  total_pnl : ℚ
  max_profit : ℚ
  max_loss : ℚ
  total_commission : ℚ
  holding_periods : List ℤ
  exit_stop_loss : ℕ
  exit_take_profit : ℕ
  exit_signal : ℕ
  deriving Repr, DecidableEq

/-- Project a ledger state onto its aggregate statistics. -/
def aggOf (om : OrderMetric) : AggState :=
  { total_trades := om.total_trades
    winning_trades := om.winning_trades
    losing_trades := om.losing_trades
    total_pnl := om.total_pnl
    max_profit := om.max_profit
    max_loss := om.max_loss
    total_commission := om.total_commission
    holding_periods := om.holding_periods
    exit_stop_loss := om.exit_stop_loss
    exit_take_profit := om.exit_take_profit
    exit_signal := om.exit_signal }

/-- The update `on_trade_exit` performs on the aggregate statistics when it
finalizes the trade record `t`. -/
def aggUpdate (a : AggState) (t : TradeRecord) : AggState :=
  { total_trades := a.total_trades + 1
    winning_trades := if t.pnl > 0 then a.winning_trades + 1 else a.winning_trades
    losing_trades := if t.pnl > 0 then a.losing_trades else a.losing_trades + 1
    total_pnl := a.total_pnl + t.pnl
    max_profit := if t.pnl > 0 then max a.max_profit t.pnl else a.max_profit
    max_loss := if t.pnl > 0 then a.max_loss else min a.max_loss t.pnl
    total_commission := a.total_commission + t.commission
    holding_periods :=
      a.holding_periods ++ [holdingDays t.entry_time (t.exit_time.getD 0)]
    exit_stop_loss :=
      if t.exit_type = "stop_loss" then a.exit_stop_loss + 1 else a.exit_stop_loss
    exit_take_profit :=
      if t.exit_type = "take_profit" then a.exit_take_profit + 1 else a.exit_take_profit
    exit_signal :=
      if t.exit_type = "signal" then a.exit_signal + 1 else a.exit_signal }

/-- The sum of the exit-type histogram counters. -/
def histSum (om : OrderMetric) : ℕ :=
  om.exit_stop_loss + om.exit_take_profit + om.exit_signal

/-! ## Structural lemmas about the ledger operations -/

theorem finalizeTrade_symbol (tr0 : TradeRecord) (ti : ℤ) (p c : ℚ) (ty : String) :
    (finalizeTrade tr0 ti p c ty).symbol = tr0.symbol := rfl

theorem finalizeTrade_entry_time (tr0 : TradeRecord) (ti : ℤ) (p c : ℚ) (ty : String) :
    (finalizeTrade tr0 ti p c ty).entry_time = tr0.entry_time := rfl

theorem finalizeTrade_exit_time (tr0 : TradeRecord) (ti : ℤ) (p c : ℚ) (ty : String) :
    (finalizeTrade tr0 ti p c ty).exit_time = some ti := rfl

theorem finalizeTrade_commission (tr0 : TradeRecord) (ti : ℤ) (p c : ℚ) (ty : String) :
    (finalizeTrade tr0 ti p c ty).commission = tr0.commission + c := rfl

theorem finalizeTrade_exit_type (tr0 : TradeRecord) (ti : ℤ) (p c : ℚ) (ty : String) :
    (finalizeTrade tr0 ti p c ty).exit_type = ty := rfl

theorem drawdownOnExit_shape (om : OrderMetric) (s : String) (v : ℚ) :
    ∃ sm, drawdownOnExit om s v = { om with stock_metrics := sm } := by
  unfold drawdownOnExit
  split
  · exact ⟨om.stock_metrics, rfl⟩
  · exact ⟨_, rfl⟩

theorem onTradeEntry_shape (om : OrderMetric) (s : String) (t : ℤ) (p : ℚ)
    (sz : ℤ) (d : Direction) (c : ℚ) :
    ∃ sm, onTradeEntry om s t p sz d c =
      { om with
        active_trades := assocSet om.active_trades s
          { symbol := s, entry_time := t, entry_price := p, size := sz
            direction := d, commission := c }
        stock_metrics := sm } := by
  unfold onTradeEntry
  dsimp only
  cases hg : assocGet om.stock_metrics s with
  | some m => exact ⟨om.stock_metrics, rfl⟩
  | none => exact ⟨_, rfl⟩

theorem aggOf_onTradeEntry (om : OrderMetric) (s : String) (t : ℤ) (p : ℚ)
    (sz : ℤ) (d : Direction) (c : ℚ) :
    aggOf (onTradeEntry om s t p sz d c) = aggOf om := by
  obtain ⟨sm, hsm⟩ := onTradeEntry_shape om s t p sz d c
  rw [hsm]
  rfl

theorem onTradeEntry_trades (om : OrderMetric) (s : String) (t : ℤ) (p : ℚ)
    (sz : ℤ) (d : Direction) (c : ℚ) :
    (onTradeEntry om s t p sz d c).trades = om.trades := by
  obtain ⟨sm, hsm⟩ := onTradeEntry_shape om s t p sz d c
  rw [hsm]

theorem onTradeEntry_active_get (om : OrderMetric) (s : String) (t : ℤ) (p : ℚ)
    (sz : ℤ) (d : Direction) (c : ℚ) :
    assocGet (onTradeEntry om s t p sz d c).active_trades s =
      some { symbol := s, entry_time := t, entry_price := p, size := sz
             direction := d, commission := c } := by
  obtain ⟨sm, hsm⟩ := onTradeEntry_shape om s t p sz d c
  rw [hsm]
  exact assocGet_set_self om.active_trades s _

theorem onTradeExit_not_active (om : OrderMetric) (s : String) (time : ℤ)
    (price comm : ℚ) (ty : String) (h : assocGet om.active_trades s = none) :
    onTradeExit om s time price comm ty = om := by
  simp only [onTradeExit, h]

/-- The aggregate effect of a successful `on_trade_exit` is exactly
`aggUpdate` with the finalized trade record. -/
theorem aggOf_onTradeExit (om : OrderMetric) (s : String) (time : ℤ)
    (price comm : ℚ) (ty : String) (trade0 : TradeRecord)
    (h : assocGet om.active_trades s = some trade0) :
    aggOf (onTradeExit om s time price comm ty) =
      aggUpdate (aggOf om) (finalizeTrade trade0 time price comm ty) := by
  obtain ⟨sm, hsm⟩ := drawdownOnExit_shape om s (price * (trade0.size : ℚ))
  by_cases hpnl : (finalizeTrade trade0 time price comm ty).pnl > 0 <;>
    simp only [onTradeExit, h, hsm, bumpExitType, aggOf, aggUpdate, hpnl,
      finalizeTrade_entry_time, finalizeTrade_exit_time, finalizeTrade_exit_type,
      Option.getD_some, if_true, if_false, AggState.mk.injEq] <;>
    split_ifs <;>
    simp_all

theorem onTradeExit_trades (om : OrderMetric) (s : String) (time : ℤ)
    (price comm : ℚ) (ty : String) (trade0 : TradeRecord)
    (h : assocGet om.active_trades s = some trade0) :
    (onTradeExit om s time price comm ty).trades =
      om.trades ++ [finalizeTrade trade0 time price comm ty] := by
  obtain ⟨sm, hsm⟩ := drawdownOnExit_shape om s (price * (trade0.size : ℚ))
  simp only [onTradeExit, h, hsm, bumpExitType]
  split_ifs <;> rfl

theorem onTradeExit_stock_stats (om : OrderMetric) (s : String) (time : ℤ)
    (price comm : ℚ) (ty : String) (trade0 : TradeRecord)
    (h : assocGet om.active_trades s = some trade0) :
    (onTradeExit om s time price comm ty).stock_stats =
      assocSet om.stock_stats s
        (statsUpdate ((assocGet om.stock_stats s).getD initStockStats)
          (finalizeTrade trade0 time price comm ty)) := by
  obtain ⟨sm, hsm⟩ := drawdownOnExit_shape om s (price * (trade0.size : ℚ))
  simp only [onTradeExit, h, hsm, bumpExitType]
  split_ifs <;> rfl

/-- Every record that `on_trade_exit` appends to the trade log is well
formed: replaying its own entry data and exit data reproduces it. -/
theorem wfTrade_finalize (trade0 : TradeRecord) (time : ℤ) (price comm : ℚ)
    (ty : String) : wfTrade (finalizeTrade trade0 time price comm ty) := by
  unfold wfTrade entryRecordOf finalizeTrade
  cases trade0.direction <;> simp

/-! ## The replay invariant -/

theorem applyEvent_wf (om : OrderMetric) (e : MetricEvent)
    (hwf : ∀ t ∈ om.trades, wfTrade t) :
    ∀ t ∈ (applyEvent om e).trades, wfTrade t := by
  cases e with
  | tradeEntry s ti p sz d c =>
    rw [applyEvent, onTradeEntry_trades]
    exact hwf
  | tradeExit s ti p c ty =>
    cases hg : assocGet om.active_trades s with
    | none =>
      rw [applyEvent, onTradeExit_not_active _ _ _ _ _ _ hg]
      exact hwf
    | some tr0 =>
      rw [applyEvent, onTradeExit_trades _ _ _ _ _ _ _ hg]
      intro t ht
      rcases List.mem_append.mp ht with h | h
      · exact hwf t h
      · have h' := List.mem_singleton.mp h
        subst h'
        exact wfTrade_finalize tr0 ti p c ty

theorem applyEvent_agg (om : OrderMetric) (e : MetricEvent)
    (hagg : aggOf om = om.trades.foldl aggUpdate (aggOf emptyOM)) :
    aggOf (applyEvent om e) =
      (applyEvent om e).trades.foldl aggUpdate (aggOf emptyOM) := by
  cases e with
  | tradeEntry s ti p sz d c =>
    rw [applyEvent, aggOf_onTradeEntry, onTradeEntry_trades]
    exact hagg
  | tradeExit s ti p c ty =>
    cases hg : assocGet om.active_trades s with
    | none =>
      rw [applyEvent, onTradeExit_not_active _ _ _ _ _ _ hg]
      exact hagg
    | some tr0 =>
      rw [applyEvent, aggOf_onTradeExit _ _ _ _ _ _ _ hg,
        onTradeExit_trades _ _ _ _ _ _ _ hg, List.foldl_append, hagg]
      rfl

theorem runEvents_wf_agg (es : List MetricEvent) : ∀ om : OrderMetric,
    (∀ t ∈ om.trades, wfTrade t) →
    aggOf om = om.trades.foldl aggUpdate (aggOf emptyOM) →
    (∀ t ∈ (runEvents om es).trades, wfTrade t) ∧
      aggOf (runEvents om es) =
        (runEvents om es).trades.foldl aggUpdate (aggOf emptyOM) := by
  induction es with
  | nil => exact fun om hwf hagg => ⟨hwf, hagg⟩
  | cons e es ih =>
    intro om hwf hagg
    exact ih (applyEvent om e) (applyEvent_wf om e hwf) (applyEvent_agg om e hagg)

theorem aggOf_replayTrade (om : OrderMetric) (t : TradeRecord)
    (hwf : wfTrade t) : aggOf (replayTrade om t) = aggUpdate (aggOf om) t := by
  rw [replayTrade,
    aggOf_onTradeExit _ _ _ _ _ _ _ (onTradeEntry_active_get om t.symbol
      t.entry_time t.entry_price t.size t.direction t.commission),
    aggOf_onTradeEntry]
  rw [show ({ symbol := t.symbol, entry_time := t.entry_time
              entry_price := t.entry_price, size := t.size
              direction := t.direction, commission := t.commission } : TradeRecord) =
        entryRecordOf t from rfl]
  rw [hwf]

/-! ## Counting invariants of the ledger -/

/-- The counting invariant of C10: the total equals winners plus losers,
equals the log length, equals the holding-period list length, and bounds
the histogram sum. -/
def CountsInv (om : OrderMetric) : Prop :=
  om.total_trades = om.winning_trades + om.losing_trades ∧
  om.total_trades = om.trades.length ∧
  om.total_trades = om.holding_periods.length ∧
  histSum om ≤ om.total_trades

theorem applyEvent_counts (om : OrderMetric) (e : MetricEvent)
    (h : CountsInv om) : CountsInv (applyEvent om e) := by
  obtain ⟨h1, h2, h3, h4⟩ := h
  cases e with
  | tradeEntry s ti p sz d c =>
    obtain ⟨sm, hsm⟩ := onTradeEntry_shape om s ti p sz d c
    rw [applyEvent, hsm]
    exact ⟨h1, h2, h3, h4⟩
  | tradeExit s ti p c ty =>
    cases hg : assocGet om.active_trades s with
    | none =>
      rw [applyEvent, onTradeExit_not_active _ _ _ _ _ _ hg]
      exact ⟨h1, h2, h3, h4⟩
    | some tr0 =>
      have ha := aggOf_onTradeExit om s ti p c ty tr0 hg
      have htr := onTradeExit_trades om s ti p c ty tr0 hg
      have htot : (onTradeExit om s ti p c ty).total_trades = om.total_trades + 1 :=
        congrArg AggState.total_trades ha
      have hwin : (onTradeExit om s ti p c ty).winning_trades =
          if (finalizeTrade tr0 ti p c ty).pnl > 0 then om.winning_trades + 1
          else om.winning_trades :=
        congrArg AggState.winning_trades ha
      have hlos : (onTradeExit om s ti p c ty).losing_trades =
          if (finalizeTrade tr0 ti p c ty).pnl > 0 then om.losing_trades
          else om.losing_trades + 1 :=
        congrArg AggState.losing_trades ha
      have hhold : (onTradeExit om s ti p c ty).holding_periods =
          om.holding_periods ++
            [holdingDays (finalizeTrade tr0 ti p c ty).entry_time
              ((finalizeTrade tr0 ti p c ty).exit_time.getD 0)] :=
        congrArg AggState.holding_periods ha
      have hsl : (onTradeExit om s ti p c ty).exit_stop_loss =
          if (finalizeTrade tr0 ti p c ty).exit_type = "stop_loss" then
            om.exit_stop_loss + 1
          else om.exit_stop_loss :=
        congrArg AggState.exit_stop_loss ha
      have htp : (onTradeExit om s ti p c ty).exit_take_profit =
          if (finalizeTrade tr0 ti p c ty).exit_type = "take_profit" then
            om.exit_take_profit + 1
          else om.exit_take_profit :=
        congrArg AggState.exit_take_profit ha
      have hsig : (onTradeExit om s ti p c ty).exit_signal =
          if (finalizeTrade tr0 ti p c ty).exit_type = "signal" then
            om.exit_signal + 1
          else om.exit_signal :=
        congrArg AggState.exit_signal ha
      refine ⟨?_, ?_, ?_, ?_⟩
      · rw [applyEvent, htot, hwin, hlos]
        split_ifs <;> omega
      · rw [applyEvent, htot, htr, List.length_append]
        simpa using h2
      · rw [applyEvent, htot, hhold, List.length_append]
        simpa using h3
      · rw [applyEvent]
        unfold histSum at h4 ⊢
        rw [htot, hsl, htp, hsig]
        split_ifs <;> first | omega | (exfalso; simp_all)

theorem runEvents_counts (es : List MetricEvent) : ∀ om : OrderMetric,
    CountsInv om → CountsInv (runEvents om es) := by
  induction es with
  | nil => exact fun om h => h
  | cons e es ih =>
    exact fun om h => ih (applyEvent om e) (applyEvent_counts om e h)

theorem aggOf_replayLog (ts : List TradeRecord) : ∀ om : OrderMetric,
    (∀ t ∈ ts, wfTrade t) →
    aggOf (replayLog om ts) = ts.foldl aggUpdate (aggOf om) := by
  induction ts with
  | nil => exact fun om _ => rfl
  | cons t ts ih =>
    intro om h
    have h1 : replayLog om (t :: ts) = replayLog (replayTrade om t) ts := rfl
    rw [h1, ih (replayTrade om t) (fun u hu => h u (List.mem_cons_of_mem _ hu)),
      aggOf_replayTrade om t (h t (List.mem_cons_self _ _))]
    rfl

/-! ## Lemmas about check_exit_signals -/

theorem checkExit_not_tracked (rm : RiskManager) (s : String) (price : ℚ)
    (rsi vr : Option ℚ) (h : assocGet rm.positions s = none) :
    checkExitSignals rm s price rsi vr = ((false, none), rm) := by
  simp only [checkExitSignals, h]

theorem checkExit_stop_loss_fires (rm : RiskManager) (s : String) (price : ℚ)
    (rsi vr : Option ℚ) (pos : RMPosition)
    (h : assocGet rm.positions s = some pos)
    (hsl : price ≤ pos.stop_loss_price) :
    checkExitSignals rm s price rsi vr = ((true, some ExitType.stop_loss), rm) := by
  simp only [checkExitSignals, h, if_pos hsl]

/-- The position record with the dynamically recomputed take-profit price
that `check_exit_signals` stores when both trend inputs are supplied:
the baseline percentage gets the trend bonus exactly when the RSI exceeds
the threshold. -/
def dynamicPos (rm : RiskManager) (pos : RMPosition) (r : ℚ) : RMPosition :=
  { pos with take_profit_price := pos.entry_price * (1 + (rm.base_take_profit_pct +
      (if r > rm.rsi_threshold then (1 : ℚ) else 0) * rm.trend_bonus)) }

/-- When both trend inputs are supplied and the stop-loss check does not
fire, `check_exit_signals` recomputes and stores the take-profit price and
then tests it; the bonus depends only on the RSI comparison, never on the
value of the volume ratio. -/
theorem checkExit_both_supplied (rm : RiskManager) (s : String) (price r v : ℚ)
    (pos : RMPosition) (h : assocGet rm.positions s = some pos)
    (hsl : ¬ price ≤ pos.stop_loss_price) :
    checkExitSignals rm s price (some r) (some v) =
      ((if price ≥ (dynamicPos rm pos r).take_profit_price then
          (true, some ExitType.take_profit)
        else (false, none)),
       { rm with positions := assocSet rm.positions s (dynamicPos rm pos r) }) := by
  simp only [checkExitSignals, h, if_neg hsl, dynamicPos]
  split_ifs <;> rfl

theorem checkExit_state_no_rsi (rm : RiskManager) (s : String) (price : ℚ)
    (vr : Option ℚ) : (checkExitSignals rm s price none vr).2 = rm := by
  unfold checkExitSignals
  cases hg : assocGet rm.positions s with
  | none => rfl
  | some pos =>
    dsimp only
    by_cases hsl : price ≤ pos.stop_loss_price
    · rw [if_pos hsl]
    · rw [if_neg hsl]
      cases vr <;> split_ifs <;> rfl

theorem checkExit_state_no_vr (rm : RiskManager) (s : String) (price r : ℚ) :
    (checkExitSignals rm s price (some r) none).2 = rm := by
  unfold checkExitSignals
  cases hg : assocGet rm.positions s with
  | none => rfl
  | some pos =>
    dsimp only
    by_cases hsl : price ≤ pos.stop_loss_price
    · rw [if_pos hsl]
    · rw [if_neg hsl]
      split_ifs <;> rfl

/-! ## Claim theorems -/

/-- C1: the claim says `get_position_size` increments the daily-committed-cash
counter and that a second same-day call for the same fixed inputs returns 0.
In the code `_today_used_cash` is written only by `__init__` and
`reset_daily_cash` and is never read or incremented by `get_position_size`,
which returns its state unchanged; with `available_cash = 10000` and
`price = 100` both sequential calls return 100 shares, not 0. -/
theorem C1_daily_cash_never_committed :
    (∀ (rm : RiskManager) (pv : List (ℤ × ℚ)) (tv cash price : ℚ),
      (getPositionSize rm pv tv cash price).2 = rm) ∧
    (getPositionSize rmDefault [] 100000 10000 100).1 = 100 ∧
    (getPositionSize ((getPositionSize rmDefault [] 100000 10000 100).2)
        [] 100000 10000 100).1 = 100 ∧
    rmDefault.today_used_cash = 0 ∧
    (resetDailyCash rmDefault).today_used_cash = 0 := by
  have hstate : ∀ (rm : RiskManager) (pv : List (ℤ × ℚ)) (tv cash price : ℚ),
      (getPositionSize rm pv tv cash price).2 = rm := by
    intro rm pv tv cash price
    simp only [getPositionSize]
    split_ifs <;> rfl
  refine ⟨hstate, ?_, ?_, rfl, rfl⟩
  · norm_num [getPositionSize, totalPositionValue, rmDefault, mkRiskManager]
  · rw [hstate]
    norm_num [getPositionSize, totalPositionValue, rmDefault, mkRiskManager]

/-- C4: the stop-loss check precedes the take-profit check: whenever the
current price is at or below the stored stop-loss price, the call reports
`(true, stop_loss)` — in particular when the take-profit threshold is
simultaneously crossed. -/
theorem C4_stop_loss_precedence (rm : RiskManager) (s : String) (price : ℚ)
    (rsi vr : Option ℚ) (pos : RMPosition)
    (h : assocGet rm.positions s = some pos)
    (hsl : price ≤ pos.stop_loss_price)
    (htp : pos.take_profit_price ≤ price) :
    (checkExitSignals rm s price rsi vr).1 = (true, some ExitType.stop_loss) := by
  rw [checkExit_stop_loss_fires rm s price rsi vr pos h hsl]

/-- C4 witness: a position whose stored thresholds satisfy both conditions
at once (stop at 110, target at 105, price 107) exits via stop-loss. -/
theorem C4_stop_loss_precedence_witness :
    (checkExitSignals
      { rmDefault with positions := [("A",
          { entry_price := 100, stop_loss_price := 110, take_profit_price := 105 })] }
      "A" 107 none none).1 = (true, some ExitType.stop_loss) :=
  C4_stop_loss_precedence _ "A" 107 none none
    { entry_price := 100, stop_loss_price := 110, take_profit_price := 105 }
    (by simp [assocGet]) (by norm_num) (by norm_num)

/-- C6: `get_position_size` returns 0 when the remaining allocation
(`total_value × max_position_size − total_position_value`) is ≤ 0, returns 0
when `min(cash, remaining)` cannot buy one share, and otherwise returns
`⌊min(cash, remaining) / price⌋`; on the spec's P4 numbers it returns
exactly 100 shares. -/
theorem C6_allocation_cap :
    (∀ (rm : RiskManager) (pv : List (ℤ × ℚ)) (tv cash price : ℚ),
      (tv * rm.max_position_size - totalPositionValue pv ≤ 0 →
        (getPositionSize rm pv tv cash price).1 = 0) ∧
      (0 < tv * rm.max_position_size - totalPositionValue pv →
        min cash (tv * rm.max_position_size - totalPositionValue pv) < price →
        (getPositionSize rm pv tv cash price).1 = 0) ∧
      (0 < tv * rm.max_position_size - totalPositionValue pv →
        price ≤ min cash (tv * rm.max_position_size - totalPositionValue pv) →
        (getPositionSize rm pv tv cash price).1 =
          ⌊min cash (tv * rm.max_position_size - totalPositionValue pv) / price⌋)) ∧
    (getPositionSize rmDefault [(2900, 10)] 100000 50000 10).1 = 100 := by
  constructor
  · intro rm pv tv cash price
    refine ⟨fun hle => ?_, fun hpos hlt => ?_, fun hpos hge => ?_⟩
    · simp only [getPositionSize, if_pos hle]
    · simp only [getPositionSize, if_neg (not_le.mpr hpos), if_pos hlt]
    · simp only [getPositionSize, if_neg (not_le.mpr hpos), if_neg (not_lt.mpr hge)]
  · norm_num [getPositionSize, totalPositionValue, rmDefault, mkRiskManager]

/-- C6 witness: on the P4 numbers the third case applies — remaining
allocation 1000 is positive, one share price 10 is affordable, and the size
is the floor of 1000 / 10. -/
theorem C6_allocation_cap_witness :
    (getPositionSize rmDefault [(2900, 10)] 100000 50000 10).1 =
      ⌊min (50000 : ℚ)
        (100000 * rmDefault.max_position_size - totalPositionValue [(2900, 10)]) / 10⌋ :=
  (C6_allocation_cap.1 rmDefault [(2900, 10)] 100000 50000 10).2.2
    (by norm_num [rmDefault, mkRiskManager, totalPositionValue])
    (by norm_num [rmDefault, mkRiskManager, totalPositionValue])

/-- C7: querying an untracked symbol is not an error and leaves the state
unchanged: `check_exit_signals` returns `(false, none)` with the same state,
and `remove_position` is an idempotent no-op for untracked symbols. -/
theorem C7_unknown_symbol_noop :
    (∀ (rm : RiskManager) (s : String) (price : ℚ) (rsi vr : Option ℚ),
      assocGet rm.positions s = none →
      checkExitSignals rm s price rsi vr = ((false, none), rm)) ∧
    (∀ (rm : RiskManager) (s : String),
      removePosition (removePosition rm s) s = removePosition rm s) ∧
    (∀ (rm : RiskManager) (s : String),
      assocGet rm.positions s = none → removePosition rm s = rm) := by
  refine ⟨fun rm s price rsi vr h => checkExit_not_tracked rm s price rsi vr h,
    fun rm s => ?_, fun rm s h => ?_⟩
  · simp only [removePosition, assocErase_idem]
  · simp only [removePosition, assocErase_of_get_none rm.positions s h]

/-- C7 witness: on a manager tracking only "A", querying and removing the
never-added symbol "B" has no effect, and removing twice equals removing
once. -/
theorem C7_unknown_symbol_noop_witness :
    checkExitSignals (addPosition rmDefault "A" 100) "B" 50 none none =
      ((false, none), addPosition rmDefault "A" 100) ∧
    removePosition (removePosition (addPosition rmDefault "A" 100) "B") "B" =
      removePosition (addPosition rmDefault "A" 100) "B" ∧
    removePosition (addPosition rmDefault "A" 100) "B" =
      addPosition rmDefault "A" 100 :=
  ⟨C7_unknown_symbol_noop.1 (addPosition rmDefault "A" 100) "B" 50 none none
      (by simp [addPosition, rmDefault, mkRiskManager, assocGet, assocSet]),
   C7_unknown_symbol_noop.2.1 (addPosition rmDefault "A" 100) "B",
   C7_unknown_symbol_noop.2.2 (addPosition rmDefault "A" 100) "B"
      (by simp [addPosition, rmDefault, mkRiskManager, assocGet, assocSet])⟩

/-- C5: `on_trade_exit` classifies `pnl > 0` as winning and `pnl ≤ 0` —
including exactly zero — as losing, both in the aggregate counters and in
the per-symbol statistics. -/
theorem C5_zero_pnl_is_loss (om : OrderMetric) (s : String) (ti : ℤ)
    (p c : ℚ) (ty : String) (tr0 : TradeRecord)
    (h : assocGet om.active_trades s = some tr0) :
    ((finalizeTrade tr0 ti p c ty).pnl ≤ 0 →
      (onTradeExit om s ti p c ty).losing_trades = om.losing_trades + 1 ∧
      (onTradeExit om s ti p c ty).winning_trades = om.winning_trades ∧
      assocGet (onTradeExit om s ti p c ty).stock_stats s =
        some (statsUpdate ((assocGet om.stock_stats s).getD initStockStats)
          (finalizeTrade tr0 ti p c ty)) ∧
      (statsUpdate ((assocGet om.stock_stats s).getD initStockStats)
          (finalizeTrade tr0 ti p c ty)).losing_trades =
        ((assocGet om.stock_stats s).getD initStockStats).losing_trades + 1 ∧
      (statsUpdate ((assocGet om.stock_stats s).getD initStockStats)
          (finalizeTrade tr0 ti p c ty)).winning_trades =
        ((assocGet om.stock_stats s).getD initStockStats).winning_trades) ∧
    (0 < (finalizeTrade tr0 ti p c ty).pnl →
      (onTradeExit om s ti p c ty).winning_trades = om.winning_trades + 1 ∧
      (onTradeExit om s ti p c ty).losing_trades = om.losing_trades) := by
  have ha := aggOf_onTradeExit om s ti p c ty tr0 h
  have hwin : (onTradeExit om s ti p c ty).winning_trades =
      if (finalizeTrade tr0 ti p c ty).pnl > 0 then om.winning_trades + 1
      else om.winning_trades :=
    congrArg AggState.winning_trades ha
  have hlos : (onTradeExit om s ti p c ty).losing_trades =
      if (finalizeTrade tr0 ti p c ty).pnl > 0 then om.losing_trades
      else om.losing_trades + 1 :=
    congrArg AggState.losing_trades ha
  have hss := onTradeExit_stock_stats om s ti p c ty tr0 h
  constructor
  · intro hple
    have hnot : ¬ (finalizeTrade tr0 ti p c ty).pnl > 0 := not_lt.mpr hple
    refine ⟨?_, ?_, ?_, ?_, ?_⟩
    · rw [hlos, if_neg hnot]
    · rw [hwin, if_neg hnot]
    · rw [hss]
      exact assocGet_set_self om.stock_stats s _
    · simp only [statsUpdate, if_neg hnot]
    · simp only [statsUpdate, if_neg hnot]
  · intro hpos
    exact ⟨by rw [hwin, if_pos hpos], by rw [hlos, if_pos hpos]⟩

/-- The ledger after one entry for "A" at price 100, size 1, no commission. -/
def omC5 : OrderMetric := onTradeEntry emptyOM "A" 0 100 1 Direction.buy 0

/-- The active record that entry installs. -/
def trC5 : TradeRecord :=
  { symbol := "A", entry_time := 0, entry_price := 100, size := 1
    direction := Direction.buy, commission := 0 }

/-- C5 witness: exiting at the entry price with zero commission gives
`pnl = 0`, which increments the losing counters and leaves the winning
counters unchanged, aggregate and per-symbol alike. -/
theorem C5_zero_pnl_is_loss_witness :
    (onTradeExit omC5 "A" 86400 100 0 "signal").losing_trades = omC5.losing_trades + 1 ∧
    (onTradeExit omC5 "A" 86400 100 0 "signal").winning_trades = omC5.winning_trades ∧
    (statsUpdate ((assocGet omC5.stock_stats "A").getD initStockStats)
        (finalizeTrade trC5 86400 100 0 "signal")).losing_trades =
      ((assocGet omC5.stock_stats "A").getD initStockStats).losing_trades + 1 := by
  have happ := (C5_zero_pnl_is_loss omC5 "A" 86400 100 0 "signal" trC5
    (onTradeEntry_active_get emptyOM "A" 0 100 1 Direction.buy 0)).1
    (by norm_num [finalizeTrade, trC5])
  exact ⟨happ.1, happ.2.1, happ.2.2.2.1⟩

/-- The risk manager tracking "A" entered at 100 with default parameters
(stop 90, baseline target 120). -/
def rmC8 : RiskManager := addPosition rmDefault "A" 100

/-- C8 counterexample: with `rsi = 75` and `volume_ratio = 0` — a volume
ratio that is above no positive surge multiplier — the stored take-profit
price becomes 130 = 100 × (1 + 0.2 + 0.1), not the baseline 120: the bonus
is granted despite the absent volume surge, and the call's outcome is
identical for `volume_ratio = 1000000`. -/
theorem C8_volume_value_ignored :
    assocGet (checkExitSignals rmC8 "A" 100 (some 75) (some 0)).2.positions "A" =
      some { entry_price := 100, stop_loss_price := 90, take_profit_price := 130 } ∧
    (100 : ℚ) * (1 + rmC8.base_take_profit_pct) = 120 ∧
    (130 : ℚ) ≠ 120 ∧
    checkExitSignals rmC8 "A" 100 (some 75) (some 0) =
      checkExitSignals rmC8 "A" 100 (some 75) (some 1000000) := by
  refine ⟨?_, ?_, by norm_num, ?_⟩
  · norm_num [checkExitSignals, rmC8, addPosition, rmDefault, mkRiskManager,
      assocGet, assocSet]
  · norm_num [rmC8, addPosition, rmDefault, mkRiskManager]
  · norm_num [checkExitSignals, rmC8, addPosition, rmDefault, mkRiskManager,
      assocGet, assocSet]

/-- C8 amended: when both trend inputs are supplied and the stop-loss does
not fire, the take-profit price is recomputed from the entry price before
the test, and it carries the trend bonus exactly when the RSI exceeds the
threshold — the volume ratio's value never enters the condition. -/
theorem C8_dynamic_take_profit_amended (rm : RiskManager) (s : String)
    (price r v : ℚ) (pos : RMPosition)
    (h : assocGet rm.positions s = some pos)
    (hsl : ¬ price ≤ pos.stop_loss_price) :
    checkExitSignals rm s price (some r) (some v) =
      ((if price ≥ (dynamicPos rm pos r).take_profit_price then
          (true, some ExitType.take_profit)
        else (false, none)),
       { rm with positions := assocSet rm.positions s (dynamicPos rm pos r) }) ∧
    (dynamicPos rm pos r).take_profit_price =
      (if rm.rsi_threshold < r then
        pos.entry_price * (1 + (rm.base_take_profit_pct + rm.trend_bonus))
      else pos.entry_price * (1 + rm.base_take_profit_pct)) := by
  refine ⟨checkExit_both_supplied rm s price r v pos h hsl, ?_⟩
  unfold dynamicPos
  split_ifs with hr <;> ring_nf

/-- C8 amended witness: on the tracked position entered at 100, price 100,
`rsi = 75 > 70`, `volume_ratio = 0`, the recomputed target is 130. -/
theorem C8_dynamic_take_profit_amended_witness :
    checkExitSignals rmC8 "A" 100 (some 75) (some 0) =
      ((if (100 : ℚ) ≥ (dynamicPos rmC8
          { entry_price := 100, stop_loss_price := 90, take_profit_price := 120 } 75).take_profit_price then
          (true, some ExitType.take_profit)
        else (false, none)),
       { rmC8 with positions := assocSet rmC8.positions "A" (dynamicPos rmC8
          { entry_price := 100, stop_loss_price := 90, take_profit_price := 120 } 75) }) ∧
    (dynamicPos rmC8
        { entry_price := 100, stop_loss_price := 90, take_profit_price := 120 } 75).take_profit_price =
      (if rmC8.rsi_threshold < 75 then
        (100 : ℚ) * (1 + (rmC8.base_take_profit_pct + rmC8.trend_bonus))
      else (100 : ℚ) * (1 + rmC8.base_take_profit_pct)) :=
  C8_dynamic_take_profit_amended rmC8 "A" 100 75 0
    { entry_price := 100, stop_loss_price := 90, take_profit_price := 120 }
    (by norm_num [rmC8, addPosition, rmDefault, mkRiskManager, assocGet, assocSet])
    (by norm_num)

/-- The risk manager tracking "A" entered at 100, whose take-profit price
was then overridden to 140 via `update_position_params`. -/
def rmC9 : RiskManager :=
  updatePositionParams (addPosition rmDefault "A" 100) "A" none (some (2/5))

/-- C9 counterexample: both `rsi` and `volume_ratio` are supplied for the
tracked symbol, yet because the stop-loss fires first (85 ≤ 90) the method
returns early and the stored take-profit price stays 140 — it is not
overwritten with the recomputed 130. -/
theorem C9_no_overwrite_on_stop_loss :
    checkExitSignals rmC9 "A" 85 (some 75) (some 2) =
      ((true, some ExitType.stop_loss), rmC9) ∧
    assocGet rmC9.positions "A" =
      some { entry_price := 100, stop_loss_price := 90, take_profit_price := 140 } ∧
    (dynamicPos rmC9
        { entry_price := 100, stop_loss_price := 90, take_profit_price := 140 } 75).take_profit_price = 130 ∧
    (140 : ℚ) ≠ 130 := by
  refine ⟨?_, ?_, ?_, by norm_num⟩
  · norm_num [checkExitSignals, rmC9, updatePositionParams, addPosition, rmDefault,
      mkRiskManager, assocGet, assocSet]
  · norm_num [rmC9, updatePositionParams, addPosition, rmDefault, mkRiskManager,
      assocGet, assocSet]
  · norm_num [dynamicPos, rmC9, updatePositionParams, addPosition, rmDefault,
      mkRiskManager, assocGet, assocSet]

/-- C9 amended: when both trend inputs are supplied for a tracked symbol
*and the stop-loss condition does not fire*, the stored take-profit price is
overwritten (also on a `(false, none)` outcome); when either input is
absent, or when the stop-loss fires and returns early, the state is
untouched. -/
theorem C9_frame_effect_amended :
    (∀ (rm : RiskManager) (s : String) (price r v : ℚ) (pos : RMPosition),
      assocGet rm.positions s = some pos → ¬ price ≤ pos.stop_loss_price →
      (checkExitSignals rm s price (some r) (some v)).2.positions =
        assocSet rm.positions s (dynamicPos rm pos r)) ∧
    (∀ (rm : RiskManager) (s : String) (price : ℚ) (vr : Option ℚ),
      (checkExitSignals rm s price none vr).2 = rm) ∧
    (∀ (rm : RiskManager) (s : String) (price r : ℚ),
      (checkExitSignals rm s price (some r) none).2 = rm) ∧
    (∀ (rm : RiskManager) (s : String) (price r v : ℚ) (pos : RMPosition),
      assocGet rm.positions s = some pos → price ≤ pos.stop_loss_price →
      checkExitSignals rm s price (some r) (some v) =
        ((true, some ExitType.stop_loss), rm)) := by
  refine ⟨fun rm s price r v pos h hsl => ?_, checkExit_state_no_rsi,
    checkExit_state_no_vr,
    fun rm s price r v pos h hsl => checkExit_stop_loss_fires rm s price _ _ pos h hsl⟩
  rw [checkExit_both_supplied rm s price r v pos h hsl]

/-- C9 amended witness: on the stored-override state, a non-stop-loss price
(100) with both inputs supplied overwrites the stored threshold, while a
stop-loss price (85) leaves the state unchanged, as does omitting an input. -/
theorem C9_frame_effect_amended_witness :
    (checkExitSignals rmC9 "A" 100 (some 75) (some 2)).2.positions =
      assocSet rmC9.positions "A" (dynamicPos rmC9
        { entry_price := 100, stop_loss_price := 90, take_profit_price := 140 } 75) ∧
    (checkExitSignals rmC9 "A" 100 none (some 2)).2 = rmC9 ∧
    (checkExitSignals rmC9 "A" 100 (some 75) none).2 = rmC9 ∧
    checkExitSignals rmC9 "A" 85 (some 75) (some 2) =
      ((true, some ExitType.stop_loss), rmC9) :=
  ⟨C9_frame_effect_amended.1 rmC9 "A" 100 75 2
      { entry_price := 100, stop_loss_price := 90, take_profit_price := 140 }
      (by norm_num [rmC9, updatePositionParams, addPosition, rmDefault,
        mkRiskManager, assocGet, assocSet])
      (by norm_num),
   C9_frame_effect_amended.2.1 rmC9 "A" 100 (some 2),
   C9_frame_effect_amended.2.2.1 rmC9 "A" 100 75,
   C9_frame_effect_amended.2.2.2 rmC9 "A" 85 75 2
      { entry_price := 100, stop_loss_price := 90, take_profit_price := 140 }
      (by norm_num [rmC9, updatePositionParams, addPosition, rmDefault,
        mkRiskManager, assocGet, assocSet])
      (by norm_num)⟩

/-- The ledger after a winning round trip on "A" (+10 over one day) followed
by a zero-PnL round trip on "B" (0 over two days). -/
def omC2 : OrderMetric :=
  onTradeExit
    (onTradeEntry
      (onTradeExit (onTradeEntry emptyOM "A" 0 100 1 Direction.buy 0)
        "A" 86400 110 0 "signal")
      "B" 0 100 1 Direction.buy 0)
    "B" 172800 100 0 "signal"

/-- C2: the claim says `get_metrics()['win_rate']` is the aggregate
`winning / total × 100`.  In the code the local `win_rate` holding the
aggregate is reused as the loop variable of the per-symbol
`stock_statistics` loop, so the returned value is the *last symbol's* rate:
here 1 win out of 2 trades (aggregate 50.0) yet the returned `win_rate` is
0.0, the rate of "B".  The `avg_holding_period` field is the correct mean
(1 + 2) / 2. -/
theorem C2_win_rate_overwritten_by_loop :
    (getMetrics omC2).win_rate = 0 ∧
    omC2.winning_trades = 1 ∧ omC2.total_trades = 2 ∧
    ((omC2.winning_trades : ℚ) / (omC2.total_trades : ℚ)) * 100 = 50 ∧
    (getMetrics omC2).avg_holding_period = 3 / 2 := by
  simp [omC2, getMetrics, onTradeEntry, onTradeExit, drawdownOnExit, finalizeTrade,
    holdingDays, emptyOM, assocGet, assocSet, assocErase, initStockStats, stockWinRate,
    statsUpdate, bumpExitType, Int.fdiv]
  norm_num

/-- If two ledgers have the same aggregates, `get_metrics` reports the same
average holding period for both. -/
theorem getMetrics_avg_eq (A B : OrderMetric) (h : aggOf A = aggOf B) :
    (getMetrics A).avg_holding_period = (getMetrics B).avg_holding_period := by
  have htot : A.total_trades = B.total_trades := congrArg AggState.total_trades h
  have hhp : A.holding_periods = B.holding_periods := congrArg AggState.holding_periods h
  simp only [getMetrics, htot, hhp]
  split_ifs <;> rfl

/-- C3: after any sequence of entry/exit calls the incrementally maintained
aggregates (trade counts, total PnL, extreme PnLs, total commission,
holding periods and hence their mean, and the exit-type histogram) coincide
with those obtained by replaying the accumulated trade log through a fresh
empty ledger. -/
theorem C3_replay_consistency (es : List MetricEvent) :
    aggOf (runEvents emptyOM es) =
      aggOf (replayLog emptyOM (runEvents emptyOM es).trades) ∧
    (getMetrics (runEvents emptyOM es)).avg_holding_period =
      (getMetrics (replayLog emptyOM (runEvents emptyOM es).trades)).avg_holding_period := by
  obtain ⟨hwf, hagg⟩ := runEvents_wf_agg es emptyOM
    (fun t ht => absurd ht (List.not_mem_nil t)) rfl
  have hrep := aggOf_replayLog (runEvents emptyOM es).trades emptyOM hwf
  have hmain : aggOf (runEvents emptyOM es) =
      aggOf (replayLog emptyOM (runEvents emptyOM es).trades) := by
    rw [hagg, hrep]
  exact ⟨hmain, getMetrics_avg_eq _ _ hmain⟩

/-- C10: after any sequence of ledger calls, the total equals winners plus
losers, equals the trade-log length, equals the holding-period list length,
and bounds the histogram sum; and an exit whose type is none of
`stop_loss` / `take_profit` / `signal` is still finalized and counted in
`total_trades` and the log, but leaves the histogram untouched. -/
theorem C10_counts_and_unknown_exit_type :
    (∀ es : List MetricEvent, CountsInv (runEvents emptyOM es)) ∧
    (∀ (om : OrderMetric) (s : String) (ti : ℤ) (p c : ℚ) (ty : String)
        (tr0 : TradeRecord),
      assocGet om.active_trades s = some tr0 →
      ty ≠ "stop_loss" → ty ≠ "take_profit" → ty ≠ "signal" →
      (onTradeExit om s ti p c ty).total_trades = om.total_trades + 1 ∧
      histSum (onTradeExit om s ti p c ty) = histSum om ∧
      (onTradeExit om s ti p c ty).trades =
        om.trades ++ [finalizeTrade tr0 ti p c ty]) := by
  constructor
  · intro es
    exact runEvents_counts es emptyOM ⟨rfl, rfl, rfl, Nat.le.refl⟩
  · intro om s ti p c ty tr0 hg h1 h2 h3
    have ha := aggOf_onTradeExit om s ti p c ty tr0 hg
    refine ⟨congrArg AggState.total_trades ha, ?_,
      onTradeExit_trades om s ti p c ty tr0 hg⟩
    have hsl : (onTradeExit om s ti p c ty).exit_stop_loss = om.exit_stop_loss := by
      have hx : (onTradeExit om s ti p c ty).exit_stop_loss =
          if (finalizeTrade tr0 ti p c ty).exit_type = "stop_loss" then
            om.exit_stop_loss + 1
          else om.exit_stop_loss :=
        congrArg AggState.exit_stop_loss ha
      rwa [finalizeTrade_exit_type, if_neg h1] at hx
    have htp : (onTradeExit om s ti p c ty).exit_take_profit = om.exit_take_profit := by
      have hx : (onTradeExit om s ti p c ty).exit_take_profit =
          if (finalizeTrade tr0 ti p c ty).exit_type = "take_profit" then
            om.exit_take_profit + 1
          else om.exit_take_profit :=
        congrArg AggState.exit_take_profit ha
      rwa [finalizeTrade_exit_type, if_neg h2] at hx
    have hsig : (onTradeExit om s ti p c ty).exit_signal = om.exit_signal := by
      have hx : (onTradeExit om s ti p c ty).exit_signal =
          if (finalizeTrade tr0 ti p c ty).exit_type = "signal" then
            om.exit_signal + 1
          else om.exit_signal :=
        congrArg AggState.exit_signal ha
      rwa [finalizeTrade_exit_type, if_neg h3] at hx
    unfold histSum
    rw [hsl, htp, hsig]

/-- C10 witness: one entry and one exit of type "manual" — the counting
invariant holds, the exit is logged and counted, and the histogram stays at
zero. -/
theorem C10_counts_and_unknown_exit_type_witness :
    CountsInv (runEvents emptyOM
      [MetricEvent.tradeEntry "A" 0 100 1 Direction.buy 0,
       MetricEvent.tradeExit "A" 86400 110 0 "manual"]) ∧
    (onTradeExit omC5 "A" 86400 110 0 "manual").total_trades = omC5.total_trades + 1 ∧
    histSum (onTradeExit omC5 "A" 86400 110 0 "manual") = histSum omC5 ∧
    (onTradeExit omC5 "A" 86400 110 0 "manual").trades =
      omC5.trades ++ [finalizeTrade trC5 86400 110 0 "manual"] :=
  ⟨C10_counts_and_unknown_exit_type.1 _,
   C10_counts_and_unknown_exit_type.2 omC5 "A" 86400 110 0 "manual" trC5
    (onTradeEntry_active_get emptyOM "A" 0 100 1 Direction.buy 0)
    (by decide) (by decide) (by decide)⟩

end CStock
